import Mathlib

/-!
Verification of the Euler-AEOS hyperbolic system module of ryujin
(source/euler_aeos/hyperbolic_system.h, source/simd.h,
source/equation_dispatch.h, source/initial_values.template.h).

Modelling conventions for the shallow embedding:

* The C++ scalar type (float/double, or one SIMD lane of a
  VectorizedArray) is modelled by the exact rationals.  All arithmetic
  claims of the specification are algebraic identities or branch
  classifications, which we settle in exact arithmetic.
* The transcendental library routines that have no exact rational
  counterpart -- std::sqrt and ryujin::pow (std::pow) -- are passed in
  as abstract function parameters.  Every theorem below holds for an
  arbitrary interpretation of these parameters (at most assuming that
  sqrt maps nonnegative inputs to nonnegative outputs, a property of
  the real square root).
* std::numeric_limits of ScalarNumber ::min(), the smallest positive
  normalized value used by safe_division, is the field scalar_min of
  the view parameters; theorems assume only that it is positive.
* The equation-of-state oracle eos->pressure(rho, e) is the abstract
  function field eos_pressure.
* A SIMD-vectorized computation acts lanewise; it is modelled on one
  lane.  dealii compare_and_apply_mask with the greater_than comparator
  becomes a lanewise if-then-else.
-/

namespace Ryujin

/-- Conserved state for the compressible Euler equations with arbitrary
EOS: density rho, momentum m (a d-vector) and total energy E; this is
the 2+dim state space of EulerAEOS::HyperbolicSystemView. -/
@[ext]
structure State (d : ℕ) where
  rho : ℚ
  m : Fin d → ℚ
  E : ℚ

instance {d : ℕ} : DecidableEq (State d) := fun U V =>
  decidable_of_iff (U.rho = V.rho ∧ U.m = V.m ∧ U.E = V.E)
    (by cases U; cases V; simp)

/-- HyperbolicSystemView::density: return U[0]. -/
def density {d : ℕ} (U : State d) : ℚ := U.rho

/-- HyperbolicSystemView::momentum: return components 1..dim. -/
def momentum {d : ℕ} (U : State d) : Fin d → ℚ := U.m

/-- HyperbolicSystemView::total_energy: return U[1+dim]. -/
def total_energy {d : ℕ} (U : State d) : ℚ := U.E

/-- dealii Tensor norm_square of a d-vector. -/
def norm_square {d : ℕ} (v : Fin d → ℚ) : ℚ := ∑ i, v i * v i

/-- Scalar product (dealii m * normal) of two d-vectors. -/
def dot {d : ℕ} (v w : Fin d → ℚ) : ℚ := ∑ i, v i * w i

/-- HyperbolicSystemView::internal_energy: rho e = E - 1/2 |m|^2 / rho,
computed as in the source via multiplication with rho_inverse. -/
def internal_energy {d : ℕ} (U : State d) : ℚ :=
  total_energy U - (1 / 2) * norm_square (momentum U) * (1 / density U)

/-- ryujin::positive_part from simd.h: max(0, number). -/
def positive_part (number : ℚ) : ℚ := max 0 number

/-- ryujin::negative_part from simd.h: -min(0, number). -/
def negative_part (number : ℚ) : ℚ := -(min 0 number)

/-- The per-instantiation context of a HyperbolicSystemView: the NASG
interpolation parameters b, p_infty, q of the selected equation of
state, the smallest positive normalized value of the scalar number type
(std::numeric_limits of ScalarNumber ::min(), used by safe_division),
and the equation-of-state pressure oracle eos_pressure(rho, e). -/
structure ViewParams where
  interpolation_b : ℚ
  interpolation_pinfty : ℚ
  interpolation_q : ℚ
  scalar_min : ℚ
  eos_pressure : ℚ → ℚ → ℚ

/-- EulerAEOS::safe_division: max(numerator, 0) / max(denominator, min)
where min is the smallest positive normalized scalar value. -/
def safe_division (P : ViewParams) (numerator denominator : ℚ) : ℚ :=
  max numerator 0 / max denominator P.scalar_min

/-- HyperbolicSystemView::surrogate_gamma:
gamma = 1 + safe_division((p + pinf) * covolume,
rho_e - rho * q - covolume * pinf) with covolume = 1 - b * rho. -/
def surrogate_gamma {d : ℕ} (P : ViewParams) (U : State d) (p : ℚ) : ℚ :=
  let b := P.interpolation_b
  let pinf := P.interpolation_pinfty
  let q := P.interpolation_q
  let rho := density U
  let rho_e := internal_energy U
  let covolume := 1 - b * rho
  let numerator := (p + pinf) * covolume
  let denominator := rho_e - rho * q - covolume * pinf
  1 + safe_division P numerator denominator

/-- HyperbolicSystemView::surrogate_pressure:
p = positive_part(gamma - 1) * safe_division(rho_e - rho q, covolume)
- gamma * pinf. -/
def surrogate_pressure {d : ℕ} (P : ViewParams) (U : State d) (gamma : ℚ) : ℚ :=
  let b := P.interpolation_b
  let pinf := P.interpolation_pinfty
  let q := P.interpolation_q
  let rho := density U
  let rho_e := internal_energy U
  let covolume := 1 - b * rho
  positive_part (gamma - 1) * safe_division P (rho_e - rho * q) covolume -
    gamma * pinf

/-- HyperbolicSystemView::surrogate_speed_of_sound: the radicand
gamma (gamma - 1) (rho_e - rho q - pinf covolume) / (covolume^2 rho)
is clamped by positive_part before the square root is taken.  The
square root routine std::sqrt is the abstract parameter sqrt. -/
def surrogate_speed_of_sound {d : ℕ} (sqrt : ℚ → ℚ) (P : ViewParams)
    (U : State d) (gamma : ℚ) : ℚ :=
  let b := P.interpolation_b
  let pinf := P.interpolation_pinfty
  let q := P.interpolation_q
  let rho := density U
  let rho_e := internal_energy U
  let covolume := 1 - b * rho
  let radicand0 := (rho_e - rho * q - pinf * covolume) /
    (covolume * covolume * rho)
  let radicand := radicand0 * (gamma * (gamma - 1))
  sqrt (positive_part radicand)

/-- HyperbolicSystemView::surrogate_specific_entropy:
s = shift * (1/rho - b)^gamma_min / covolume with
shift = internal_energy - rho q - pinf covolume.  The exponentiation
routine ryujin::pow is the abstract parameter rpow. -/
def surrogate_specific_entropy {d : ℕ} (rpow : ℚ → ℚ → ℚ) (P : ViewParams)
    (U : State d) (gamma_min : ℚ) : ℚ :=
  let b := P.interpolation_b
  let pinf := P.interpolation_pinfty
  let q := P.interpolation_q
  let rho := density U
  let rho_inverse := 1 / rho
  let covolume := 1 - b * rho
  let shift := internal_energy U - rho * q - pinf * covolume
  shift * rpow (rho_inverse - b) gamma_min / covolume

/-- HyperbolicSystemView::surrogate_harten_entropy:
eta = (positive_part(rho^2 e - rho^2 q - rho pinf cov) *
cov^(gamma_min - 1))^(1/(gamma_min + 1)). -/
def surrogate_harten_entropy {d : ℕ} (rpow : ℚ → ℚ → ℚ) (P : ViewParams)
    (U : State d) (gamma_min : ℚ) : ℚ :=
  let b := P.interpolation_b
  let pinf := P.interpolation_pinfty
  let q := P.interpolation_q
  let rho := density U
  let mom := momentum U
  let E := total_energy U
  let rho_rho_e_q := rho * E - (1 / 2) * norm_square mom - rho * rho * q
  let exponent := 1 / (gamma_min + 1)
  let covolume := 1 - b * rho
  let covolume_term := rpow covolume (gamma_min - 1)
  let rho_pinfcov := rho * pinf * covolume
  rpow (positive_part (rho_rho_e_q - rho_pinfcov) * covolume_term) exponent

/-- HyperbolicSystemView::is_admissible: with
shift = rho_e - rho q - pinf covolume the test value is
(rho greater than 0 ? 0 : -1) + (shift greater than 0 ? 0 : -1), one
compare_and_apply_mask per condition, and the state is admissible when
the test value equals 0. -/
def is_admissible {d : ℕ} (P : ViewParams) (U : State d) : Bool :=
  let b := P.interpolation_b
  let pinf := P.interpolation_pinfty
  let q := P.interpolation_q
  let rho := density U
  let rho_e := internal_energy U
  let covolume := 1 - b * rho
  let shift := rho_e - rho * q - pinf * covolume
  let test := (if 0 < rho then (0 : ℚ) else -1) +
    (if 0 < shift then (0 : ℚ) else -1)
  decide (test = 0)

/-- HyperbolicSystemView::to_primitive_state: copy the state, multiply
the momentum components by 1/rho and replace the energy slot by the
specific internal energy rho_e / rho. -/
def to_primitive_state {d : ℕ} (state : State d) : State d :=
  let rho := density state
  let rho_inverse := 1 / rho
  let rho_e := internal_energy state
  { rho := state.rho
    m := fun i => state.m i * rho_inverse
    E := rho_e * rho_inverse }

/-- HyperbolicSystemView::from_primitive_state: read the velocity u and
specific internal energy e from the primitive state, multiply the
velocity components by rho, and set the energy slot to
rho e + 1/2 rho u * u. -/
def from_primitive_state {d : ℕ} (primitive_state : State d) : State d :=
  let rho := density primitive_state
  let u := momentum primitive_state
  let e := total_energy primitive_state
  { rho := primitive_state.rho
    m := fun i => primitive_state.m i * rho
    E := rho * e + (1 / 2) * rho * dot u u }

/-- HyperbolicSystemView::prescribe_riemann_characteristic, templated
in component (1 or 2): transform both states into Riemann
characteristic variables, take R_component from the bar state and the
remaining data from U, and reconstruct a conserved state.  std::pow and
ryujin::pow are the abstract parameter rpow, std::sqrt the abstract
parameter sqrt. -/
def prescribe_riemann_characteristic {d : ℕ} (sqrt : ℚ → ℚ)
    (rpow : ℚ → ℚ → ℚ) (P : ViewParams) (component : ℕ) (U : State d)
    (p : ℚ) (U_bar : State d) (p_bar : ℚ) (normal : Fin d → ℚ) : State d :=
  let b := P.interpolation_b
  let pinf := P.interpolation_pinfty
  let q := P.interpolation_q
  let m := momentum U
  let rho := density U
  let vn := dot m normal / rho
  let gamma := surrogate_gamma P U p
  let a := surrogate_speed_of_sound sqrt P U gamma
  let covolume := 1 - b * rho
  let m_bar := momentum U_bar
  let rho_bar := density U_bar
  let vn_bar := dot m_bar normal / rho_bar
  let gamma_bar := surrogate_gamma P U_bar p_bar
  let a_bar := surrogate_speed_of_sound sqrt P U_bar gamma_bar
  let covolume_bar := 1 - b * rho_bar
  let R_1 := if component = 1
    then vn_bar - 2 * a_bar / (gamma_bar - 1) * covolume_bar
    else vn - 2 * a / (gamma - 1) * covolume
  let R_2 := if component = 2
    then vn_bar + 2 * a_bar / (gamma_bar - 1) * covolume_bar
    else vn + 2 * a / (gamma - 1) * covolume
  let vperp := fun i => m i / rho - vn * normal i
  let S := (p + pinf) * rpow (1 / rho - b) gamma
  let vn_new := (1 / 2) * (R_1 + R_2)
  let a_new_square := ((gamma - 1) * (R_2 - R_1) / (4 * covolume)) ^ 2
  let term0 := rpow (a_new_square / (gamma * S)) (1 / (gamma - 1))
  let term := if b ≠ 0 then term0 * rpow covolume (2 / (gamma - 1)) else term0
  let rho_new := term / (1 + b * term)
  let covolume_new := 1 - b * rho_new
  let p_new := a_new_square / gamma * rho_new * covolume_new - pinf
  let rho_e_new := rho_new * q + (p_new + gamma * pinf) * covolume_new /
    (gamma - 1)
  { rho := rho_new
    m := fun i => rho_new * (vn_new * normal i + vperp i)
    E := rho_e_new + (1 / 2) * rho_new *
      (vn_new * vn_new + norm_square vperp) }

/-- The boundary ids handled by
HyperbolicSystemView::apply_boundary_conditions. -/
inductive Boundary where
  | dirichlet
  | dirichlet_momentum
  | slip
  | no_slip
  | dynamic
deriving DecidableEq

/-- HyperbolicSystemView::apply_boundary_conditions.  The
get_dirichlet_data lambda is modelled by the value dirichlet_data it
returns.  In the dynamic branch the source queries the eos pressure
oracle, computes a surrogate gamma and sound speed, and runs three
successive conditional assignments to result (supersonic inflow,
subsonic inflow, subsonic outflow); a state not matching any of the
three conditions is returned unchanged (supersonic outflow). -/
def apply_boundary_conditions {d : ℕ} (sqrt : ℚ → ℚ) (rpow : ℚ → ℚ → ℚ)
    (P : ViewParams) (id : Boundary) (U : State d) (normal : Fin d → ℚ)
    (dirichlet_data : State d) : State d :=
  match id with
  | Boundary.dirichlet => dirichlet_data
  | Boundary.dirichlet_momentum =>
      { U with m := momentum dirichlet_data }
  | Boundary.slip =>
      let m := momentum U
      { U with m := fun k => m k - (dot m normal) * normal k }
  | Boundary.no_slip =>
      { U with m := fun _ => 0 }
  | Boundary.dynamic =>
      let m := momentum U
      let rho := density U
      let rho_e := internal_energy U
      let p := P.eos_pressure rho (rho_e / rho)
      let gamma := surrogate_gamma P U p
      let a := surrogate_speed_of_sound sqrt P U gamma
      let vn := dot m normal / rho
      let result := U
      let result := if vn < -a then dirichlet_data else result
      let result := if -a ≤ vn ∧ vn ≤ 0 then
          (let U_dirichlet := dirichlet_data
           let rho_dirichlet := density U_dirichlet
           let rho_e_dirichlet := internal_energy U_dirichlet
           let p_dirichlet :=
             P.eos_pressure rho_dirichlet (rho_e_dirichlet / rho_dirichlet)
           prescribe_riemann_characteristic sqrt rpow P 2
             U_dirichlet p_dirichlet U p normal)
        else result
      let result := if 0 < vn ∧ vn ≤ a then
          (let U_dirichlet := dirichlet_data
           let rho_dirichlet := density U_dirichlet
           let rho_e_dirichlet := internal_energy U_dirichlet
           let p_dirichlet :=
             P.eos_pressure rho_dirichlet (rho_e_dirichlet / rho_dirichlet)
           prescribe_riemann_characteristic sqrt rpow P 1
             U p U_dirichlet p_dirichlet normal)
        else result
      result

/-- The per-node tuple of n_precomputed_values = 4 precomputed scalars
of the Euler-AEOS system: pressure, surrogate_gamma_min,
surrogate_specific_entropy, surrogate_harten_entropy. -/
structure Prec where
  p : ℚ
  gamma_min : ℚ
  s : ℚ
  eta : ℚ
deriving DecidableEq

/-- Cycle 0 of HyperbolicSystemView::precomputation_loop, scalar-EOS
execution mode: for every node i in the range with sparsity row length
other than 1, query the eos pressure oracle per node and store
(p_i, surrogate_gamma(U_i, p_i), 0, 0); constrained degrees of freedom
and nodes outside the range keep their previous entry.  The parallel
loop writes disjoint rows, so it is modelled pointwise. -/
def precomputation_cycle0_scalar {d : ℕ} (P : ViewParams)
    (sparsity : ℕ → List ℕ) (U : ℕ → State d) (precomputed : ℕ → Prec)
    (left right : ℕ) : ℕ → Prec :=
  fun i =>
    if left ≤ i ∧ i < right ∧ (sparsity i).length ≠ 1 then
      let U_i := U i
      let rho_i := density U_i
      let e_i := internal_energy U_i / rho_i
      let p_i := P.eos_pressure rho_i e_i
      let gamma_i := surrogate_gamma P U_i p_i
      { p := p_i, gamma_min := gamma_i, s := 0, eta := 0 }
    else precomputed i

/-- Cycle 0 of HyperbolicSystemView::precomputation_loop, vector-EOS
execution mode: rho and e are gathered into scratch arrays of size
right - left for the whole range (constrained rows included), a single
vectorized eos call produces the pressure array lanewise, and the
results are scattered back skipping constrained degrees of freedom. -/
def precomputation_cycle0_vector {d : ℕ} (P : ViewParams)
    (sparsity : ℕ → List ℕ) (U : ℕ → State d) (precomputed : ℕ → Prec)
    (left right : ℕ) : ℕ → Prec :=
  let size := right - left
  let rho_list := (List.range size).map (fun k => density (U (left + k)))
  let e_list := (List.range size).map
    (fun k => internal_energy (U (left + k)) / density (U (left + k)))
  let p_list := List.zipWith P.eos_pressure rho_list e_list
  fun i =>
    if left ≤ i ∧ i < right ∧ (sparsity i).length ≠ 1 then
      let p_i := p_list.getD (i - left) 0
      let gamma_i := surrogate_gamma P (U i) p_i
      { p := p_i, gamma_min := gamma_i, s := 0, eta := 0 }
    else precomputed i

/-- Cycle 1 of HyperbolicSystemView::precomputation_loop: for every
node i in the range with sparsity row length other than 1, initialize
gamma_min with the node's own second precomputed entry, walk the
remaining columns of row i (the column pointer starts one stride after
the self column), recompute the neighbour's surrogate gamma from its
state and its first precomputed entry and take the running minimum;
finally store the two entropies evaluated at gamma_min. -/
def precomputation_cycle1 {d : ℕ} (rpow : ℚ → ℚ → ℚ) (P : ViewParams)
    (sparsity : ℕ → List ℕ) (U : ℕ → State d) (precomputed : ℕ → Prec)
    (left right : ℕ) : ℕ → Prec :=
  fun i =>
    if left ≤ i ∧ i < right ∧ (sparsity i).length ≠ 1 then
      let prec_i := precomputed i
      let gamma_min_i := ((sparsity i).drop 1).foldl
        (fun g j => min g (surrogate_gamma P (U j) ((precomputed j).p)))
        prec_i.gamma_min
      let s_i := surrogate_specific_entropy rpow P (U i) gamma_min_i
      let eta_i := surrogate_harten_entropy rpow P (U i) gamma_min_i
      { p := prec_i.p, gamma_min := gamma_min_i, s := s_i, eta := eta_i }
    else precomputed i

/-- HyperbolicSystemView::precomputation_loop: dispatch on the cycle
and on the eos prefer_vector_interface flag.  The dispatch_check hook
(cooperative cancellation) has no effect on the computed values and is
not modelled. -/
def precomputation_loop {d : ℕ} (rpow : ℚ → ℚ → ℚ) (P : ViewParams)
    (prefer_vector_interface : Bool) (sparsity : ℕ → List ℕ)
    (U : ℕ → State d) (precomputed : ℕ → Prec) (left right : ℕ)
    (cycle : ℕ) : ℕ → Prec :=
  if cycle = 0 then
    if prefer_vector_interface then
      precomputation_cycle0_vector P sparsity U precomputed left right
    else
      precomputation_cycle0_scalar P sparsity U precomputed left right
  else if cycle = 1 then
    precomputation_cycle1 rpow P sparsity U precomputed left right
  else precomputed

/-- The Dave error message prefix from equation_dispatch.h. -/
def dave : String :=
  "\nDave, this conversation can serve no purpose anymore. Goodbye.\n\n"

/-- EquationDispatch::dispatch: after parameter parsing, assert that
the dimension parameter lies in 1..3 (message naming the value), that
at least one equation has been registered (signals is not null), and,
after running the registered dispatch callbacks, that one of them
matched the equation parameter and executed a time loop (message naming
the equation).  Registered equations are modelled by their names; the
result is ok on success and the fatal exception message otherwise. -/
def equation_dispatch (registered : List String)
    (dimension : ℤ) (equation : String) : Except String Unit :=
  if ¬(1 ≤ dimension ∧ dimension ≤ 3) then
    Except.error (dave ++ "The dimension parameter needs to be " ++
      "either 1, 2, or 3, but we encountered »" ++ toString dimension ++
      "«\n")
  else if registered = [] then
    Except.error (dave ++ "No equation has been registered. " ++
      "Consequently, there is nothing for us to do.\n")
  else if ¬(equation ∈ registered) then
    Except.error (dave ++ "No equation was dispatched " ++
      "with the chosen equation parameter »" ++ equation ++ "«.\n")
  else Except.ok ()

/-- The populate_functions callback of the HyperbolicSystem
constructor: search the equation of state list for the configured name
and throw a fatal exception naming the unknown name otherwise.  The
list is modelled by the names of its entries; the result is the
selected name or the exception message. -/
def hyperbolic_system_select_eos (equation_of_state_list : List String)
    (equation_of_state : String) : Except String String :=
  match equation_of_state_list.find? (fun n => n = equation_of_state) with
  | some n => Except.ok n
  | none => Except.error
      ("Could not find an equation of state description with name \"" ++
        equation_of_state ++ "\"")

/-- The initial state selection of
InitialValues::parse_parameters_callback: search the initial state list
for the configured name and throw a fatal exception naming the unknown
configuration otherwise. -/
def initial_values_select_state (initial_state_list : List String)
    (configuration : String) : Except String String :=
  match initial_state_list.find? (fun n => n = configuration) with
  | some n => Except.ok n
  | none => Except.error
      ("Could not find an initial state description with name \"" ++
        configuration ++ "\"")

/-- The random perturbation wrapper installed by
InitialValues::parse_parameters_callback around the initial state
function when the perturbation parameter is nonzero: at evaluation
times t greater than 0 the wrapped state is returned unchanged; at
t at most 0 every one of the 2+d state components is multiplied by
(1 + perturbation * draw), with the uniform draws from the interval
-1..1 modelled by the abstract sequence xi. -/
def apply_random_perturbation {d : ℕ} (perturbation : ℚ) (xi : ℕ → ℚ)
    (t : ℚ) (state : State d) : State d :=
  if 0 < t then state
  else
    { rho := state.rho * (1 + perturbation * xi 0)
      m := fun i => state.m i * (1 + perturbation * xi (1 + i.val))
      E := state.E * (1 + perturbation * xi (1 + d)) }

/-- The initial state function object of InitialValues after
parse_parameters_callback: the base configuration function, wrapped in
the random perturbation closure exactly when the perturbation
parameter is nonzero. -/
def initial_state_function {d : ℕ} {Point : Type}
    (base : Point → ℚ → State d) (perturbation : ℚ) (xi : ℕ → ℚ)
    (x : Point) (t : ℚ) : State d :=
  if perturbation ≠ 0 then
    apply_random_perturbation perturbation xi t (base x t)
  else base x t

/-- A concrete parameter set used by witnesses: all interpolation
parameters zero (polytropic-style interpolation), a small positive
machine minimum, and the polytropic pressure oracle with gamma 7/5. -/
def sample_params : ViewParams :=
  { interpolation_b := 0
    interpolation_pinfty := 0
    interpolation_q := 0
    scalar_min := 1 / 1000000
    eos_pressure := fun rho e => (2 / 5) * rho * e }

/-- C5: safe_division(n, d) equals max(n, 0) / max(d, eps) for the
positive machine minimum eps; the result is therefore nonnegative and
the divisor is never zero. -/
theorem safe_division_spec (P : ViewParams) (numerator denominator : ℚ)
    (heps : 0 < P.scalar_min) :
    safe_division P numerator denominator =
      max numerator 0 / max denominator P.scalar_min ∧
    0 ≤ safe_division P numerator denominator ∧
    max denominator P.scalar_min ≠ 0 := by
  have hpos : 0 < max denominator P.scalar_min :=
    lt_of_lt_of_le heps (le_max_right _ _)
  exact ⟨rfl, div_nonneg (le_max_right _ _) (le_of_lt hpos),
    ne_of_gt hpos⟩

/-- Witness for C5 at numerator 3, denominator 0. -/
theorem safe_division_spec_witness :
    0 < sample_params.scalar_min ∧
    (safe_division sample_params 3 0 =
        max 3 0 / max 0 sample_params.scalar_min ∧
      0 ≤ safe_division sample_params 3 0 ∧
      max (0 : ℚ) sample_params.scalar_min ≠ 0) :=
  ⟨by norm_num [sample_params],
    safe_division_spec sample_params 3 0 (by norm_num [sample_params])⟩

/-- C2 counterexample: for the state (rho, m, E) = (1, 0, 0) with all
interpolation parameters zero the shifted internal energy is exactly 0,
so the claimed equivalence (admissible iff rho positive and shifted
internal energy nonnegative) fails: the code requires strict
positivity and reports the state as inadmissible. -/
theorem is_admissible_claim_counterexample :
    ¬(is_admissible sample_params (⟨1, fun _ => 0, 0⟩ : State 1) = true ↔
      (0 < density (⟨1, fun _ => 0, 0⟩ : State 1) ∧
        density (⟨1, fun _ => 0, 0⟩ : State 1) *
            sample_params.interpolation_q +
          sample_params.interpolation_pinfty *
            (1 - sample_params.interpolation_b *
              density (⟨1, fun _ => 0, 0⟩ : State 1)) ≤
          internal_energy (⟨1, fun _ => 0, 0⟩ : State 1))) := by
  simp only [is_admissible, internal_energy, density, total_energy,
    momentum, norm_square, sample_params, Fin.sum_univ_one]
  norm_num

/-- C2 amended: is_admissible(U) is true iff rho is positive and the
shifted internal energy is strictly positive, i.e.
rho q + p_infty (1 - b rho) < (rho e). -/
theorem is_admissible_iff {d : ℕ} (P : ViewParams) (U : State d) :
    is_admissible P U = true ↔
      (0 < density U ∧
        density U * P.interpolation_q +
          P.interpolation_pinfty * (1 - P.interpolation_b * density U) <
          internal_energy U) := by
  unfold is_admissible
  simp only [decide_eq_true_eq]
  constructor
  · intro h
    split_ifs at h with h1 h2
    · exact ⟨h1, by linarith⟩
    · norm_num at h
    · norm_num at h
    · norm_num at h
  · rintro ⟨h1, h2⟩
    rw [if_pos h1, if_pos (show (0 : ℚ) <
      internal_energy U - density U * P.interpolation_q -
        P.interpolation_pinfty * (1 - P.interpolation_b * density U)
      by linarith)]
    norm_num

/-- C7: converting a conserved state with nonzero density to the
primitive state (rho, v, e) and back is the identity, exactly. -/
theorem from_to_primitive_roundtrip {d : ℕ} (U : State d)
    (h : density U ≠ 0) :
    from_primitive_state (to_primitive_state U) = U := by
  obtain ⟨rho, mom, E⟩ := U
  have hrho : rho ≠ 0 := h
  have key : dot (fun i => mom i * (1 / rho)) (fun i => mom i * (1 / rho)) =
      norm_square mom * ((1 / rho) * (1 / rho)) := by
    unfold dot norm_square
    rw [Finset.sum_mul]
    refine Finset.sum_congr rfl fun i _ => ?_
    show mom i * (1 / rho) * (mom i * (1 / rho)) =
      mom i * mom i * (1 / rho * (1 / rho))
    ring
  simp only [from_primitive_state, to_primitive_state, internal_energy,
    total_energy, density, momentum, key, State.mk.injEq]
  refine ⟨trivial, ?_⟩
  field_simp
  ring

/-- Witness for C7 at the state (2, 3, 5) in one space dimension. -/
theorem from_to_primitive_roundtrip_witness :
    density (⟨2, fun _ => 3, 5⟩ : State 1) ≠ 0 ∧
    from_primitive_state (to_primitive_state (⟨2, fun _ => 3, 5⟩ : State 1)) =
      ⟨2, fun _ => 3, 5⟩ :=
  ⟨by norm_num [density],
    from_to_primitive_roundtrip _ (by norm_num [density])⟩

/-- C9: the radicand handed to the square root inside
surrogate_speed_of_sound is the positive part of
gamma (gamma - 1) (rho e - rho q - p_infty cov) / (cov^2 rho), hence
nonnegative; consequently, for any square root routine mapping
nonnegative inputs to nonnegative outputs, the function returns a
nonnegative value. -/
theorem surrogate_speed_of_sound_safety {d : ℕ} (sqrt : ℚ → ℚ)
    (P : ViewParams) (U : State d) (gamma : ℚ)
    (hsqrt : ∀ x, 0 ≤ x → 0 ≤ sqrt x) :
    0 ≤ positive_part ((internal_energy U -
        density U * P.interpolation_q -
        P.interpolation_pinfty * (1 - P.interpolation_b * density U)) /
        ((1 - P.interpolation_b * density U) *
          (1 - P.interpolation_b * density U) * density U) *
        (gamma * (gamma - 1))) ∧
    surrogate_speed_of_sound sqrt P U gamma =
      sqrt (positive_part ((internal_energy U -
        density U * P.interpolation_q -
        P.interpolation_pinfty * (1 - P.interpolation_b * density U)) /
        ((1 - P.interpolation_b * density U) *
          (1 - P.interpolation_b * density U) * density U) *
        (gamma * (gamma - 1)))) ∧
    0 ≤ surrogate_speed_of_sound sqrt P U gamma :=
  ⟨le_max_left _ _, rfl, hsqrt _ (le_max_left _ _)⟩

/-- Witness for C9 with the identity as square root routine. -/
theorem surrogate_speed_of_sound_safety_witness :
    0 ≤ surrogate_speed_of_sound (fun x => x) sample_params
      (⟨1, fun _ => 0, 1⟩ : State 1) 2 :=
  (surrogate_speed_of_sound_safety (fun x => x) sample_params
    (⟨1, fun _ => 0, 1⟩ : State 1) 2 (fun _ h => h)).2.2

/-- C10: whenever the initial state function produced by
parse_parameters_callback is evaluated at a time t greater than 0, the
random multiplicative perturbation is skipped and the unperturbed
initial state is returned, for every perturbation magnitude and every
sequence of random draws. -/
theorem initial_state_unperturbed_for_positive_time {d : ℕ}
    {Point : Type} (base : Point → ℚ → State d) (perturbation : ℚ)
    (xi : ℕ → ℚ) (x : Point) (t : ℚ) (h : 0 < t) :
    initial_state_function base perturbation xi x t = base x t := by
  unfold initial_state_function apply_random_perturbation
  by_cases hp : perturbation ≠ 0
  · rw [if_pos hp, if_pos h]
  · rw [if_neg hp]

/-- Witness for C10 at t = 1, perturbation 1/2. -/
theorem initial_state_unperturbed_witness :
    initial_state_function (fun (_ : ℚ) (_ : ℚ) =>
        (⟨1, fun _ => 0, 1⟩ : State 1)) (1 / 2) (fun _ => 1) 0 1 =
      (⟨1, fun _ => 0, 1⟩ : State 1) :=
  initial_state_unperturbed_for_positive_time _ _ _ _ _ (by norm_num)

/-- C8: configuration errors are fatal and the raised message names the
offending value: a dimension parameter outside 1..3 produces an error
naming the dimension; an equation matching no registered equation (with
a nonempty registry) produces an error naming the equation; an unknown
equation of state name and an unknown initial state configuration
produce errors naming those strings. -/
theorem configuration_errors_fatal :
    (∀ (registered : List String) (dimension : ℤ) (equation : String),
        (dimension < 1 ∨ 3 < dimension) →
        ∃ pre post, equation_dispatch registered dimension equation =
          Except.error (pre ++ toString dimension ++ post)) ∧
    (∀ (registered : List String) (dimension : ℤ) (equation : String),
        registered ≠ [] → 1 ≤ dimension → dimension ≤ 3 →
        equation ∉ registered →
        ∃ pre post, equation_dispatch registered dimension equation =
          Except.error (pre ++ equation ++ post)) ∧
    (∀ (eos_list : List String) (name : String), name ∉ eos_list →
        ∃ pre post, hyperbolic_system_select_eos eos_list name =
          Except.error (pre ++ name ++ post)) ∧
    (∀ (state_list : List String) (configuration : String),
        configuration ∉ state_list →
        ∃ pre post, initial_values_select_state state_list configuration =
          Except.error (pre ++ configuration ++ post)) := by
  refine ⟨?_, ?_, ?_, ?_⟩
  · intro registered dimension equation h
    refine ⟨dave ++ "The dimension parameter needs to be " ++
      "either 1, 2, or 3, but we encountered »", "«\n", ?_⟩
    unfold equation_dispatch
    rw [if_pos]
    omega
  · intro registered dimension equation hne h1 h3 hmem
    refine ⟨dave ++ "No equation was dispatched " ++
      "with the chosen equation parameter »", "«.\n", ?_⟩
    unfold equation_dispatch
    rw [if_neg (not_not_intro ⟨h1, h3⟩), if_neg hne, if_pos hmem]
  · intro eos_list name hn
    refine ⟨"Could not find an equation of state description with name \"",
      "\"", ?_⟩
    unfold hyperbolic_system_select_eos
    rw [List.find?_eq_none.mpr]
    intro x hx
    simp only [decide_eq_true_eq]
    rintro rfl
    exact hn hx
  · intro state_list configuration hn
    refine ⟨"Could not find an initial state description with name \"",
      "\"", ?_⟩
    unfold initial_values_select_state
    rw [List.find?_eq_none.mpr]
    intro x hx
    simp only [decide_eq_true_eq]
    rintro rfl
    exact hn hx

/-- Witness for C8 at dimension 0, unknown equation, eos and initial
state names. -/
theorem configuration_errors_fatal_witness :
    (∃ pre post, equation_dispatch ["euler"] 0 "euler" =
      Except.error (pre ++ toString (0 : ℤ) ++ post)) ∧
    (∃ pre post, equation_dispatch ["euler"] 2 "eulr" =
      Except.error (pre ++ "eulr" ++ post)) ∧
    (∃ pre post, hyperbolic_system_select_eos ["polytropic gas"] "vdw" =
      Except.error (pre ++ "vdw" ++ post)) ∧
    (∃ pre post, initial_values_select_state ["uniform"] "shock" =
      Except.error (pre ++ "shock" ++ post)) :=
  ⟨configuration_errors_fatal.1 ["euler"] 0 "euler" (Or.inl (by norm_num)),
    configuration_errors_fatal.2.1 ["euler"] 2 "eulr" (by simp)
      (by norm_num) (by norm_num) (by simp),
    configuration_errors_fatal.2.2.1 ["polytropic gas"] "vdw" (by simp),
    configuration_errors_fatal.2.2.2 ["uniform"] "shock" (by simp)⟩

/-- C1 counterexample: for the state (rho, m, E) = (1, 0, 1) with all
interpolation parameters zero and the pressure value p = -1, the
numerator clamp inside safe_division forces surrogate_gamma to 1, and
surrogate_pressure returns 0, not -1.  The claimed round trip fails for
negative pressure values. -/
theorem surrogate_pressure_roundtrip_counterexample :
    surrogate_pressure sample_params (⟨1, fun _ => 0, 1⟩ : State 1)
      (surrogate_gamma sample_params (⟨1, fun _ => 0, 1⟩ : State 1) (-1)) ≠
      -1 := by
  simp only [surrogate_pressure, surrogate_gamma, safe_division,
    positive_part, internal_energy, density, total_energy, momentum,
    norm_square, sample_params, Fin.sum_univ_one]
  norm_num

/-- C1 amended: for every state with positive density whose covolume
1 - b rho and shifted internal energy rho e - rho q - cov p_infty are
at least the machine minimum, and every pressure value p with
p + p_infty nonnegative (p_infty itself nonnegative), the surrogate
pressure evaluated at the surrogate gamma recovers p exactly. -/
theorem surrogate_pressure_inverts_gamma {d : ℕ} (P : ViewParams)
    (U : State d) (p : ℚ)
    (hrho : 0 < density U)
    (heps : 0 < P.scalar_min)
    (hpinf : 0 ≤ P.interpolation_pinfty)
    (hnum : 0 ≤ p + P.interpolation_pinfty)
    (hcov : P.scalar_min ≤ 1 - P.interpolation_b * density U)
    (hden : P.scalar_min ≤ internal_energy U -
      density U * P.interpolation_q -
      (1 - P.interpolation_b * density U) * P.interpolation_pinfty) :
    surrogate_pressure P U (surrogate_gamma P U p) = p := by
  simp only [surrogate_pressure, surrogate_gamma, safe_division,
    positive_part]
  set pinf := P.interpolation_pinfty with hpinfdef
  set q := P.interpolation_q with hqdef
  set rho := density U with hrhodef
  set rho_e := internal_energy U with hrhoedef
  set eps := P.scalar_min with hepsdef
  set cov := 1 - P.interpolation_b * rho with hcovdef
  set den := rho_e - rho * q - cov * pinf with hdendef
  have hcov0 : (0 : ℚ) < cov := lt_of_lt_of_le heps hcov
  have hden0 : (0 : ℚ) < den := lt_of_lt_of_le heps hden
  have hsub : rho_e - rho * q = den + cov * pinf := by rw [hdendef]; ring
  have hne2 : (0 : ℚ) ≤ rho_e - rho * q := by
    rw [hsub]
    have := mul_nonneg hcov0.le hpinf
    linarith
  rw [max_eq_left (mul_nonneg hnum hcov0.le), max_eq_left hden,
    max_eq_left hne2, max_eq_left hcov]
  have hX : (1 : ℚ) + (p + pinf) * cov / den - 1 = (p + pinf) * cov / den :=
    by ring
  rw [hX, max_eq_right (div_nonneg (mul_nonneg hnum hcov0.le) hden0.le),
    hsub]
  field_simp
  ring

/-- Witness for C1 at the state (1, 0, 1) and pressure value 2. -/
theorem surrogate_pressure_inverts_gamma_witness :
    (0 < density (⟨1, fun _ => 0, 1⟩ : State 1) ∧
      0 < sample_params.scalar_min ∧
      0 ≤ sample_params.interpolation_pinfty ∧
      0 ≤ 2 + sample_params.interpolation_pinfty ∧
      sample_params.scalar_min ≤ 1 - sample_params.interpolation_b *
        density (⟨1, fun _ => 0, 1⟩ : State 1) ∧
      sample_params.scalar_min ≤
        internal_energy (⟨1, fun _ => 0, 1⟩ : State 1) -
        density (⟨1, fun _ => 0, 1⟩ : State 1) *
          sample_params.interpolation_q -
        (1 - sample_params.interpolation_b *
          density (⟨1, fun _ => 0, 1⟩ : State 1)) *
          sample_params.interpolation_pinfty) ∧
    surrogate_pressure sample_params (⟨1, fun _ => 0, 1⟩ : State 1)
      (surrogate_gamma sample_params (⟨1, fun _ => 0, 1⟩ : State 1) 2) = 2 := by
  have h1 : 0 < density (⟨1, fun _ => 0, 1⟩ : State 1) := by
    norm_num [density]
  have h2 : 0 < sample_params.scalar_min := by norm_num [sample_params]
  have h3 : (0 : ℚ) ≤ sample_params.interpolation_pinfty := by
    norm_num [sample_params]
  have h4 : (0 : ℚ) ≤ 2 + sample_params.interpolation_pinfty := by
    norm_num [sample_params]
  have h5 : sample_params.scalar_min ≤ 1 - sample_params.interpolation_b *
      density (⟨1, fun _ => 0, 1⟩ : State 1) := by
    norm_num [sample_params, density]
  have h6 : sample_params.scalar_min ≤
      internal_energy (⟨1, fun _ => 0, 1⟩ : State 1) -
      density (⟨1, fun _ => 0, 1⟩ : State 1) *
        sample_params.interpolation_q -
      (1 - sample_params.interpolation_b *
        density (⟨1, fun _ => 0, 1⟩ : State 1)) *
        sample_params.interpolation_pinfty := by
    norm_num [sample_params, density, internal_energy, total_energy,
      momentum, norm_square, Fin.sum_univ_one]
  exact ⟨⟨h1, h2, h3, h4, h5, h6⟩,
    surrogate_pressure_inverts_gamma sample_params _ 2 h1 h2 h3 h4 h5 h6⟩

/-- C4: every precomputation sweep leaves the precomputed entry of a
constrained degree of freedom (sparsity row length 1) unchanged, for
every cycle and in both the scalar-EOS and vector-EOS execution
modes. -/
theorem precomputation_loop_skips_constrained {d : ℕ}
    (rpow : ℚ → ℚ → ℚ) (P : ViewParams) (prefer_vector_interface : Bool)
    (sparsity : ℕ → List ℕ) (U : ℕ → State d) (precomputed : ℕ → Prec)
    (left right cycle i : ℕ) (h : (sparsity i).length = 1) :
    precomputation_loop rpow P prefer_vector_interface sparsity U
      precomputed left right cycle i = precomputed i := by
  have hcond : ¬(left ≤ i ∧ i < right ∧ (sparsity i).length ≠ 1) := by
    rintro ⟨-, -, hne⟩; exact hne h
  have hs : precomputation_cycle0_scalar P sparsity U precomputed left
      right i = precomputed i := by
    unfold precomputation_cycle0_scalar; rw [if_neg hcond]
  have hv : precomputation_cycle0_vector P sparsity U precomputed left
      right i = precomputed i := by
    unfold precomputation_cycle0_vector; rw [if_neg hcond]
  have hc1 : precomputation_cycle1 rpow P sparsity U precomputed left
      right i = precomputed i := by
    unfold precomputation_cycle1; rw [if_neg hcond]
  unfold precomputation_loop
  split_ifs <;> first | exact hv | exact hs | exact hc1 | rfl

/-- Witness for C4: a constrained node with row [0] keeps its entry
(5, 6, 7, 8) in cycle 0 of the vector-EOS mode and in cycle 1. -/
theorem precomputation_loop_skips_constrained_witness :
    (List.length ((fun _ => [0]) 0) = 1 ∧
      precomputation_loop (fun _ _ => 0) sample_params true (fun _ => [0])
        (fun _ => (⟨1, fun _ => 0, 1⟩ : State 1)) (fun _ => ⟨5, 6, 7, 8⟩)
        0 2 0 0 = ⟨5, 6, 7, 8⟩) ∧
    precomputation_loop (fun _ _ => 0) sample_params false (fun _ => [0])
      (fun _ => (⟨1, fun _ => 0, 1⟩ : State 1)) (fun _ => ⟨5, 6, 7, 8⟩)
      0 2 1 0 = ⟨5, 6, 7, 8⟩ :=
  ⟨⟨rfl, precomputation_loop_skips_constrained (fun _ _ => 0) sample_params
      true (fun _ => [0]) (fun _ => (⟨1, fun _ => 0, 1⟩ : State 1))
      (fun _ => ⟨5, 6, 7, 8⟩) 0 2 0 0 rfl⟩,
    precomputation_loop_skips_constrained (fun _ _ => 0) sample_params
      false (fun _ => [0]) (fun _ => (⟨1, fun _ => 0, 1⟩ : State 1))
      (fun _ => ⟨5, 6, 7, 8⟩) 0 2 1 0 rfl⟩

/-- A left fold of running minima is bounded by its initial value. -/
theorem foldl_min_le_init (f : ℕ → ℚ) (l : List ℕ) :
    ∀ g0 : ℚ, l.foldl (fun g x => min g (f x)) g0 ≤ g0 := by
  induction l with
  | nil => intro g0; exact le_refl g0
  | cons a t ih =>
    intro g0
    simp only [List.foldl_cons]
    exact le_trans (ih (min g0 (f a))) (min_le_left _ _)

/-- A left fold of running minima is bounded by every folded value. -/
theorem foldl_min_le_mem (f : ℕ → ℚ) (l : List ℕ) :
    ∀ (g0 : ℚ) (j : ℕ), j ∈ l →
      l.foldl (fun g x => min g (f x)) g0 ≤ f j := by
  induction l with
  | nil => intro g0 j hj; cases hj
  | cons a t ih =>
    intro g0 j hj
    simp only [List.foldl_cons]
    rcases List.mem_cons.mp hj with rfl | hmem
    · exact le_trans (foldl_min_le_init f t _) (min_le_right _ _)
    · exact ih _ j hmem

/-- A left fold of running minima is attained at the initial value or
at one of the folded values. -/
theorem foldl_min_attained (f : ℕ → ℚ) (l : List ℕ) :
    ∀ g0 : ℚ, l.foldl (fun g x => min g (f x)) g0 = g0 ∨
      ∃ j ∈ l, l.foldl (fun g x => min g (f x)) g0 = f j := by
  induction l with
  | nil => intro g0; exact Or.inl rfl
  | cons a t ih =>
    intro g0
    simp only [List.foldl_cons]
    rcases ih (min g0 (f a)) with hfold | ⟨j, hj, hfold⟩
    · rw [hfold]
      rcases le_total g0 (f a) with hle | hle
      · exact Or.inl (min_eq_left hle)
      · exact Or.inr ⟨a, List.mem_cons_self a t, min_eq_right hle⟩
    · exact Or.inr ⟨j, List.mem_cons_of_mem a hj, hfold⟩

/-- The vector-EOS and scalar-EOS modes of precomputation cycle 0
compute the same precomputed vector: the vectorized eos call acts
lanewise on the gathered scratch arrays. -/
theorem precomputation_cycle0_vector_eq_scalar {d : ℕ} (P : ViewParams)
    (sparsity : ℕ → List ℕ) (U : ℕ → State d) (precomputed : ℕ → Prec)
    (left right : ℕ) :
    precomputation_cycle0_vector P sparsity U precomputed left right =
      precomputation_cycle0_scalar P sparsity U precomputed left right := by
  funext i
  unfold precomputation_cycle0_vector precomputation_cycle0_scalar
  by_cases hc : left ≤ i ∧ i < right ∧ (sparsity i).length ≠ 1
  · rw [if_pos hc, if_pos hc]
    have hzip : ∀ l : List ℕ,
        List.zipWith P.eos_pressure
          (l.map (fun k => density (U (left + k))))
          (l.map (fun k =>
            internal_energy (U (left + k)) / density (U (left + k)))) =
        l.map (fun k => P.eos_pressure (density (U (left + k)))
          (internal_energy (U (left + k)) / density (U (left + k)))) := by
      intro l
      induction l with
      | nil => rfl
      | cons a t ih =>
        simp only [List.map_cons, List.zipWith_cons_cons, ih]
    have hk : i - left < right - left := by omega
    have hleft : left + (i - left) = i := by omega
    have hget : (List.zipWith P.eos_pressure
        ((List.range (right - left)).map
          (fun k => density (U (left + k))))
        ((List.range (right - left)).map (fun k =>
          internal_energy (U (left + k)) / density (U (left + k))))).getD
        (i - left) 0 =
        P.eos_pressure (density (U i))
          (internal_energy (U i) / density (U i)) := by
      rw [hzip, List.getD_eq_getElem?_getD, List.getElem?_map,
        List.getElem?_range hk]
      show P.eos_pressure (density (U (left + (i - left))))
          (internal_energy (U (left + (i - left))) /
            density (U (left + (i - left)))) =
        P.eos_pressure (density (U i))
          (internal_energy (U i) / density (U i))
      rw [hleft]
    rw [hget]
  · rw [if_neg hc, if_neg hc]

/-- C3: after precomputation cycle 1 operating on the result of cycle
0, for every unconstrained node i in the sweep range whose sparsity row
lists i itself first followed by its stencil neighbours js, the second
precomputed entry is the minimum over the full one-ring i :: js of the
surrogate gamma values (computed from each ring member's state and
first precomputed entry after cycle 0), and the third and fourth
entries are the two surrogate entropies of U i evaluated at that
minimum.  This holds in both execution modes. -/
theorem precomputation_gamma_min_over_one_ring {d : ℕ}
    (rpow : ℚ → ℚ → ℚ) (P : ViewParams) (prefer_vector_interface : Bool)
    (sparsity : ℕ → List ℕ) (U : ℕ → State d) (precomputed : ℕ → Prec)
    (left right i : ℕ) (js : List ℕ)
    (hl : left ≤ i) (hr : i < right)
    (hcol : sparsity i = i :: js) (hlen : (sparsity i).length ≠ 1) :
    let prec0 := precomputation_loop rpow P prefer_vector_interface
      sparsity U precomputed left right 0
    let result := precomputation_loop rpow P prefer_vector_interface
      sparsity U prec0 left right 1 i
    (∀ j ∈ i :: js, result.gamma_min ≤
      surrogate_gamma P (U j) ((prec0 j).p)) ∧
    (∃ j ∈ i :: js, result.gamma_min =
      surrogate_gamma P (U j) ((prec0 j).p)) ∧
    result.s = surrogate_specific_entropy rpow P (U i) result.gamma_min ∧
    result.eta = surrogate_harten_entropy rpow P (U i) result.gamma_min := by
  intro prec0 result
  have hcond : left ≤ i ∧ i < right ∧ (sparsity i).length ≠ 1 :=
    ⟨hl, hr, hlen⟩
  have hprec0 : prec0 = precomputation_cycle0_scalar P sparsity U
      precomputed left right := by
    show precomputation_loop rpow P prefer_vector_interface sparsity U
      precomputed left right 0 = _
    unfold precomputation_loop
    rw [if_pos rfl]
    cases prefer_vector_interface
    · rfl
    · exact precomputation_cycle0_vector_eq_scalar P sparsity U
        precomputed left right
  have hpi : prec0 i =
      { p := P.eos_pressure (density (U i))
          (internal_energy (U i) / density (U i)),
        gamma_min := surrogate_gamma P (U i)
          (P.eos_pressure (density (U i))
            (internal_energy (U i) / density (U i))),
        s := 0, eta := 0 } := by
    rw [hprec0]
    unfold precomputation_cycle0_scalar
    rw [if_pos hcond]
  have hown : (prec0 i).gamma_min = surrogate_gamma P (U i) ((prec0 i).p) :=
    by rw [hpi]
  have hresult : result = precomputation_cycle1 rpow P sparsity U prec0
      left right i := by
    show precomputation_loop rpow P prefer_vector_interface sparsity U
      prec0 left right 1 i = _
    unfold precomputation_loop
    rw [if_neg (by norm_num), if_pos rfl]
  have hres2 : result =
      { p := (prec0 i).p,
        gamma_min := js.foldl
          (fun g j => min g (surrogate_gamma P (U j) ((prec0 j).p)))
          ((prec0 i).gamma_min),
        s := surrogate_specific_entropy rpow P (U i)
          (js.foldl
            (fun g j => min g (surrogate_gamma P (U j) ((prec0 j).p)))
            ((prec0 i).gamma_min)),
        eta := surrogate_harten_entropy rpow P (U i)
          (js.foldl
            (fun g j => min g (surrogate_gamma P (U j) ((prec0 j).p)))
            ((prec0 i).gamma_min)) } := by
    rw [hresult]
    unfold precomputation_cycle1
    rw [if_pos hcond, hcol]
    rfl
  refine ⟨?_, ?_, ?_, ?_⟩
  · intro j hj
    rw [hres2]
    rcases List.mem_cons.mp hj with rfl | hmem
    · exact le_trans (foldl_min_le_init _ js _) (le_of_eq hown)
    · exact foldl_min_le_mem _ js _ j hmem
  · rw [hres2]
    rcases foldl_min_attained
        (fun j => surrogate_gamma P (U j) ((prec0 j).p)) js
        ((prec0 i).gamma_min) with hfold | ⟨j, hj, hfold⟩
    · exact ⟨i, List.mem_cons_self i js, by rw [hfold, hown]⟩
    · exact ⟨j, List.mem_cons_of_mem i hj, hfold⟩
  · rw [hres2]
  · rw [hres2]

/-- Witness for C3: a two-node mesh with ring row [0, 1] at node 0. -/
theorem precomputation_gamma_min_over_one_ring_witness :
    let prec0 := precomputation_loop (fun _ _ => 0) sample_params false
      (fun j => if j = 0 then [0, 1] else [1])
      (fun _ => (⟨1, fun _ => 0, 1⟩ : State 1)) (fun _ => ⟨0, 0, 0, 0⟩) 0 2 0
    let result := precomputation_loop (fun _ _ => 0) sample_params false
      (fun j => if j = 0 then [0, 1] else [1])
      (fun _ => (⟨1, fun _ => 0, 1⟩ : State 1)) prec0 0 2 1 0
    (∀ j ∈ [0, 1], result.gamma_min ≤
      surrogate_gamma sample_params (⟨1, fun _ => 0, 1⟩ : State 1)
        ((prec0 j).p)) ∧
    (∃ j ∈ [0, 1], result.gamma_min =
      surrogate_gamma sample_params (⟨1, fun _ => 0, 1⟩ : State 1)
        ((prec0 j).p)) ∧
    result.s = surrogate_specific_entropy (fun _ _ => 0) sample_params
      (⟨1, fun _ => 0, 1⟩ : State 1) result.gamma_min ∧
    result.eta = surrogate_harten_entropy (fun _ _ => 0) sample_params
      (⟨1, fun _ => 0, 1⟩ : State 1) result.gamma_min :=
  precomputation_gamma_min_over_one_ring (fun _ _ => 0) sample_params
    false (fun j => if j = 0 then [0, 1] else [1])
    (fun _ => (⟨1, fun _ => 0, 1⟩ : State 1)) (fun _ => ⟨0, 0, 0, 0⟩)
    0 2 0 [1] (Nat.le_refl 0) (by norm_num) rfl (by decide)

/-- C6: the dynamic boundary condition classifies the flow by the
normal velocity vn against the surrogate sound speed a computed from
the eos pressure oracle: full Dirichlet data for supersonic inflow
vn < -a; the characteristic reconstruction with component 2 (R_2 taken
from the interior state, the rest from the Dirichlet state) for
subsonic inflow -a <= vn <= 0; the characteristic reconstruction with
component 1 (R_1 taken from the Dirichlet state, the rest from the
interior state) for subsonic outflow 0 < vn <= a; and the unchanged
state for supersonic outflow a < vn. -/
theorem apply_boundary_dynamic_classification {d : ℕ} (sqrt : ℚ → ℚ)
    (rpow : ℚ → ℚ → ℚ) (P : ViewParams) (U U_bar : State d)
    (normal : Fin d → ℚ) (p a vn : ℚ)
    (hsqrt : ∀ x, 0 ≤ x → 0 ≤ sqrt x)
    (hp : p = P.eos_pressure (density U) (internal_energy U / density U))
    (ha : a = surrogate_speed_of_sound sqrt P U (surrogate_gamma P U p))
    (hvn : vn = dot (momentum U) normal / density U) :
    (vn < -a →
      apply_boundary_conditions sqrt rpow P Boundary.dynamic U normal
        U_bar = U_bar) ∧
    (-a ≤ vn ∧ vn ≤ 0 →
      apply_boundary_conditions sqrt rpow P Boundary.dynamic U normal
        U_bar = prescribe_riemann_characteristic sqrt rpow P 2 U_bar
          (P.eos_pressure (density U_bar)
            (internal_energy U_bar / density U_bar)) U p normal) ∧
    (0 < vn ∧ vn ≤ a →
      apply_boundary_conditions sqrt rpow P Boundary.dynamic U normal
        U_bar = prescribe_riemann_characteristic sqrt rpow P 1 U p U_bar
          (P.eos_pressure (density U_bar)
            (internal_energy U_bar / density U_bar)) normal) ∧
    (a < vn →
      apply_boundary_conditions sqrt rpow P Boundary.dynamic U normal
        U_bar = U) := by
  have ha0 : 0 ≤ a := by
    rw [ha]
    simp only [surrogate_speed_of_sound]
    exact hsqrt _ (le_max_left _ _)
  refine ⟨?_, ?_, ?_, ?_⟩ <;> intro hcase <;>
    (simp only [apply_boundary_conditions]; rw [← hp, ← ha, ← hvn])
  · have hna : ¬(0 < vn ∧ vn ≤ a) := by rintro ⟨h1, -⟩; linarith
    have hnb : ¬(-a ≤ vn ∧ vn ≤ 0) := by rintro ⟨h1, -⟩; linarith
    rw [if_neg hna, if_neg hnb, if_pos hcase]
  · have hna : ¬(0 < vn ∧ vn ≤ a) := by
      rintro ⟨h1, -⟩; exact absurd hcase.2 (not_le.mpr h1)
    rw [if_neg hna, if_pos hcase]
  · rw [if_pos hcase]
  · have hna : ¬(0 < vn ∧ vn ≤ a) := by rintro ⟨-, h2⟩; linarith
    have hnb : ¬(-a ≤ vn ∧ vn ≤ 0) := by rintro ⟨-, h2⟩; linarith
    have hnc : ¬(vn < -a) := by intro h1; linarith
    rw [if_neg hna, if_neg hnb, if_neg hnc]

/-- Witness for C6: a supersonic outflow state with vanishing surrogate
sound speed is returned unchanged. -/
theorem apply_boundary_dynamic_classification_witness :
    apply_boundary_conditions (fun _ => 0) (fun _ _ => 0) sample_params
      Boundary.dynamic (⟨1, fun _ => 1, 1⟩ : State 1) (fun _ => 1)
      (⟨2, fun _ => 0, 2⟩ : State 1) = (⟨1, fun _ => 1, 1⟩ : State 1) :=
  (apply_boundary_dynamic_classification (fun _ => 0) (fun _ _ => 0)
    sample_params (⟨1, fun _ => 1, 1⟩ : State 1)
    (⟨2, fun _ => 0, 2⟩ : State 1) (fun _ => 1) (1 / 5) 0 1
    (fun _ _ => le_refl 0)
    (by norm_num [sample_params, density, internal_energy, total_energy,
      momentum, norm_square, Fin.sum_univ_one])
    rfl
    (by norm_num [dot, momentum, density, Fin.sum_univ_one])).2.2.2
    (by norm_num)

end Ryujin
